import Mathlib

set_option maxRecDepth 10000

/-!
Verification development for the Air Instruments core. This file gives a
shallow embedding of the gesture trigger engine (src/App.tsx:
processPhysics, isFingerOpen, triggerString, gameLoop) and of the audio
synthesis engine (src/services/audioEngine.ts: noteToFreq, playNote,
updateConfig, init), together with data from src/types.ts, and proves
theorems checking the natural-language specification against that code.
Positions, times and frequencies are modelled as rationals so that every
definition is executable and every concrete scenario can be evaluated.
-/

namespace AirInstruments

/-! ### Gesture trigger engine definitions (src/App.tsx) -/

/-- NUM_STRINGS (App.tsx line 10). -/
def NUM_STRINGS : ℕ := 12

/-- velocityThreshold in normalized units per ms (App.tsx line 160). -/
def velocityThreshold : ℚ := 3/20000

/-- debounceTime in ms (App.tsx line 161). -/
def debounceTime : ℚ := 40

/-- stringSpacing = 1.0 / (NUM_STRINGS + 1) (App.tsx line 157). -/
def stringSpacing : ℚ := 1 / (NUM_STRINGS + 1)

/-- Horizontal position of virtual string s:
stringX = stringSpacing * (s + 1) (App.tsx line 203). -/
def stringX (s : ℕ) : ℚ := stringSpacing * ((s : ℚ) + 1)

/-- One entry of lastFingerData: the finger's last mirrored x and its
observation time (App.tsx line 29). -/
structure FingerData where
  x : ℚ
  time : ℚ
deriving DecidableEq

/-- The crossing test for one string (App.tsx lines 205-207):
crossedLeftToRight = lastX < stringX and x >= stringX;
crossedRightToLeft = lastX > stringX and x <= stringX. -/
def crossedB (lastX x sx : ℚ) : Bool :=
  (decide (lastX < sx) && decide (x ≥ sx)) || (decide (lastX > sx) && decide (x ≤ sx))

/-- Full firing condition for one string given the current value debS of its
debounce slot (App.tsx lines 209-212): crossing, then the y-zone check
y > 0.1 and y < 0.9, then the debounce check now - debS > debounceTime. -/
def fireCond (lastX x y now debS sx : ℚ) : Bool :=
  crossedB lastX x sx && (decide (y > 1/10) && decide (y < 9/10)) &&
    decide (now - debS > debounceTime)

/-- The for-loop over strings (App.tsx lines 202-218), threaded over the
debounce array exactly as the source mutates it: on an accepted trigger for
string s, slot s is set to now before the loop continues. Returns the
triggered indices in loop order together with the final debounce array. -/
def stringsPass (lastX x y now : ℚ) : List ℕ → List ℚ → List ℕ × List ℚ
  | [], deb => ([], deb)
  | s :: rest, deb =>
    if fireCond lastX x y now (deb.getD s 0) (stringX s) then
      let r := stringsPass lastX x y now rest (deb.set s now)
      (s :: r.1, r.2)
    else
      stringsPass lastX x y now rest deb

/-- Result of one per-finger update: emitted trigger indices, the new
debounce array, and the overwritten FingerData for this finger. -/
structure FingerResult where
  triggers : List ℕ
  debounce : List ℚ
  track : FingerData
deriving DecidableEq

/-- The per-finger body of processPhysics (App.tsx lines 176-222), with the
openness classification already computed. A closed finger only updates its
track state (lines 178-186). An open finger with a prior record computes
velocity = |dx| / dt when dt > 0 and 0 otherwise (line 199), and when it
exceeds velocityThreshold runs the string loop (lines 201-219); the track
state is overwritten to (1 - rawX, now) in every case (line 222). -/
def fingerUpdate (isOpen : Bool) (rawX y now : ℚ)
    (lastData : Option FingerData) (deb : List ℚ) : FingerResult :=
  let x := 1 - rawX
  match isOpen with
  | false => ⟨[], deb, ⟨x, now⟩⟩
  | true =>
    match lastData with
    | none => ⟨[], deb, ⟨x, now⟩⟩
    | some lastD =>
      let dx := x - lastD.x
      let dt := now - lastD.time
      let velocity := if dt > 0 then |dx| / dt else 0
      if velocity > velocityThreshold then
        let r := stringsPass lastD.x x y now (List.range NUM_STRINGS) deb
        ⟨r.1, r.2, ⟨x, now⟩⟩
      else ⟨[], deb, ⟨x, now⟩⟩

/-- Trigger-to-note mapping of triggerString (App.tsx line 230):
instrument.notes[index % instrument.notes.length]. -/
def noteForIndex (notes : List String) (index : ℕ) : String :=
  notes.getD (index % notes.length) ""

/-! ### Per-frame physics with JavaScript error semantics (src/App.tsx) -/

/-- One normalized hand landmark. -/
structure Landmark where
  x : ℚ
  y : ℚ
deriving DecidableEq

/-- Reading landmarks[i] followed by a property access: in JavaScript an
index that is missing yields undefined and the subsequent .x access throws,
so the access is modelled as fallible. -/
def lmGet (landmarks : List Landmark) (i : ℕ) : Except Unit Landmark :=
  match landmarks.get? i with
  | some p => Except.ok p
  | none => Except.error ()

/-- isFingerOpen (App.tsx lines 138-152). Math.hypot distances are compared
via their squares: for nonnegative reals, hypot(tip) > 0.9 * hypot(pip) iff
distSq(tip) > 0.81 * distSq(pip); the equivalence with the square-root
formulation is proved below (isFingerOpen_matches_hypot). The wrist, PIP and
tip landmarks are accessed in source order, so a missing index throws. -/
def isFingerOpenE (landmarks : List Landmark) (tipIdx pipIdx wristIdx : ℕ) :
    Except Unit Bool := do
  let wrist ← lmGet landmarks wristIdx
  let pip ← lmGet landmarks pipIdx
  let tip ← lmGet landmarks tipIdx
  let distWristToPipSq := (pip.x - wrist.x) ^ 2 + (pip.y - wrist.y) ^ 2
  let distWristToTipSq := (tip.x - wrist.x) ^ 2 + (tip.y - wrist.y) ^ 2
  pure (decide (distWristToTipSq > (9/10) ^ 2 * distWristToPipSq))

/-- Mutable physics state of App.tsx: lastFingerData (line 29) and
stringDebounceRef (line 31). -/
structure PhysState where
  lastFingerData : List (ℕ × FingerData)
  stringDebounce : List ℚ
deriving DecidableEq

/-- Map.get on lastFingerData. -/
def lookupFinger (m : List (ℕ × FingerData)) (k : ℕ) : Option FingerData :=
  m.lookup k

/-- Map.set on lastFingerData: overwrite the entry for key k. -/
def setFinger (m : List (ℕ × FingerData)) (k : ℕ) (v : FingerData) :
    List (ℕ × FingerData) :=
  (k, v) :: m.filter (fun p => p.1 != k)

/-- One finger of the forEach body (App.tsx lines 176-222), including the
landmark accesses that can throw on malformed data. -/
def fingerStepE (landmarks : List Landmark) (handIndex tip pip : ℕ) (now : ℚ)
    (st : PhysState) : Except Unit (PhysState × List ℕ) := do
  let isOpen ← isFingerOpenE landmarks tip pip 0
  let tipLm ← lmGet landmarks tip
  let fingerId := handIndex * 100 + tip
  let r := fingerUpdate isOpen tipLm.x tipLm.y now
      (lookupFinger st.lastFingerData fingerId) st.stringDebounce
  pure ({ lastFingerData := setFinger st.lastFingerData fingerId r.track,
          stringDebounce := r.debounce }, r.triggers)

/-- The fingers array of App.tsx lines 169-174: tip/PIP landmark pairs. -/
def fingerPairs : List (ℕ × ℕ) := [(8, 6), (12, 10), (16, 14), (20, 18)]

/-- fingers.forEach of App.tsx line 176: a thrown exception aborts the
remaining fingers of this hand and propagates. -/
def handStepE (landmarks : List Landmark) (handIndex : ℕ) (now : ℚ) :
    List (ℕ × ℕ) → PhysState → Except Unit (PhysState × List ℕ)
  | [], st => Except.ok (st, [])
  | (tip, pip) :: rest, st => do
    let r1 ← fingerStepE landmarks handIndex tip pip now st
    let r2 ← handStepE landmarks handIndex now rest r1.1
    pure (r2.1, r1.2 ++ r2.2)

/-- landmarksArray.forEach of App.tsx line 163, carrying the hand index. -/
def processPhysicsE (now : ℚ) :
    List (List Landmark) → ℕ → PhysState → Except Unit (PhysState × List ℕ)
  | [], _, st => Except.ok (st, [])
  | landmarks :: restHands, handIndex, st => do
    let r1 ← handStepE landmarks handIndex now fingerPairs st
    let r2 ← processPhysicsE now restHands (handIndex + 1) r1.1
    pure (r2.1, r1.2 ++ r2.2)

/-- processPhysics (App.tsx lines 154-225) on a frame's hands. An exception
raised by a malformed hand propagates to the caller: nothing in
processPhysics catches it. -/
def processPhysics (hands : List (List Landmark)) (now : ℚ) (st : PhysState) :
    Except Unit (PhysState × List ℕ) :=
  processPhysicsE now hands 0 st

/-- The physics portion of gameLoop (App.tsx lines 122-125): the try/catch
of lines 116-120 wraps only the landmark detection, so detection failure
yields a null result and an empty physics step, while an exception thrown
inside processPhysics is not caught and escapes the frame's processing. -/
def gameLoopPhysics (detectResult : Option (List (List Landmark)))
    (frameTime : ℚ) (st : PhysState) : Except Unit (PhysState × List ℕ) :=
  match detectResult with
  | some hands => processPhysics hands frameTime st
  | none => Except.ok (st, [])

/-- Initial physics state (App.tsx lines 29-31): empty finger map and a
debounce array of NUM_STRINGS zeros. -/
def initialPhysState : PhysState :=
  { lastFingerData := [], stringDebounce := List.replicate NUM_STRINGS 0 }

/-! ### Data model (src/types.ts) -/

/-- Waveform (types.ts lines 1-6). -/
inductive Waveform
  | sine
  | square
  | sawtooth
  | triangle
deriving DecidableEq

/-- SynthConfig (types.ts lines 8-18). -/
structure SynthConfig where
  waveform : Waveform
  attack : ℚ
  decay : ℚ
  sustain : ℚ
  release : ℚ
  gain : ℚ
  filterFreq : ℚ
  delayMix : ℚ
  detune : Option ℚ := none
deriving DecidableEq

/-- SCALE_PENTATONIC_C (types.ts lines 30-34). -/
def SCALE_PENTATONIC_C : List String :=
  ["C4", "D4", "E4", "G4", "A4", "C5", "D5", "E5", "G5", "A5", "C6", "D6"]

/-- DEFAULT_CONFIG (types.ts lines 48-57). -/
def DEFAULT_CONFIG : SynthConfig :=
  { waveform := Waveform.sine
    attack := 5/1000
    decay := 1/10
    sustain := 3/10
    release := 15/10
    gain := 3/10
    filterFreq := 2000
    delayMix := 3/10
    detune := none }

/-! ### Audio synthesis engine definitions (src/services/audioEngine.ts) -/

/-- The fixed note lookup table of noteToFreq (audioEngine.ts lines 69-77). -/
def noteMap : List (String × ℚ) :=
  [("C0", 1635/100), ("C#0", 1732/100), ("Db0", 1732/100), ("D0", 1835/100),
   ("D#0", 1945/100), ("Eb0", 1945/100), ("E0", 2060/100), ("F0", 2183/100),
   ("F#0", 2312/100), ("Gb0", 2312/100), ("G0", 2450/100), ("G#0", 2596/100),
   ("Ab0", 2596/100), ("A0", 2750/100), ("A#0", 2914/100), ("Bb0", 2914/100),
   ("B0", 3087/100), ("C1", 3270/100), ("C#1", 3465/100), ("Db1", 3465/100),
   ("D1", 3671/100), ("D#1", 3889/100), ("Eb1", 3889/100), ("E1", 4120/100),
   ("F1", 4365/100), ("F#1", 4625/100), ("Gb1", 4625/100), ("G1", 4900/100),
   ("G#1", 5191/100), ("Ab1", 5191/100), ("A1", 5500/100), ("A#1", 5827/100),
   ("Bb1", 5827/100), ("B1", 6174/100), ("C2", 6541/100), ("C#2", 6930/100),
   ("Db2", 6930/100), ("D2", 7342/100), ("D#2", 7778/100), ("Eb2", 7778/100),
   ("E2", 8241/100), ("F2", 8731/100), ("F#2", 9250/100), ("Gb2", 9250/100),
   ("G2", 9800/100), ("G#2", 10383/100), ("Ab2", 10383/100), ("A2", 11000/100),
   ("A#2", 11654/100), ("Bb2", 11654/100), ("B2", 12347/100), ("C3", 13081/100),
   ("C#3", 13859/100), ("Db3", 13859/100), ("D3", 14683/100), ("D#3", 15556/100),
   ("Eb3", 15556/100), ("E3", 16481/100), ("F3", 17461/100), ("F#3", 18500/100),
   ("Gb3", 18500/100), ("G3", 19600/100), ("G#3", 20765/100), ("Ab3", 20765/100),
   ("A3", 22000/100), ("A#3", 23308/100), ("Bb3", 23308/100), ("B3", 24694/100),
   ("C4", 26163/100), ("C#4", 27718/100), ("Db4", 27718/100), ("D4", 29366/100),
   ("D#4", 31113/100), ("Eb4", 31113/100), ("E4", 32963/100), ("F4", 34923/100),
   ("F#4", 36999/100), ("Gb4", 36999/100), ("G4", 39200/100), ("G#4", 41530/100),
   ("Ab4", 41530/100), ("A4", 44000/100), ("A#4", 46616/100), ("Bb4", 46616/100),
   ("B4", 49388/100), ("C5", 52325/100), ("C#5", 55437/100), ("Db5", 55437/100),
   ("D5", 58733/100), ("D#5", 62225/100), ("Eb5", 62225/100), ("E5", 65926/100),
   ("F5", 69846/100), ("F#5", 73999/100), ("Gb5", 73999/100), ("G5", 78399/100),
   ("G#5", 83061/100), ("Ab5", 83061/100), ("A5", 88000/100), ("A#5", 93233/100),
   ("Bb5", 93233/100), ("B5", 98777/100), ("C6", 104650/100), ("C#6", 110873/100),
   ("Db6", 110873/100), ("D6", 117466/100), ("D#6", 124451/100), ("Eb6", 124451/100),
   ("E6", 131851/100), ("F6", 139691/100), ("F#6", 147998/100), ("Gb6", 147998/100),
   ("G6", 156798/100), ("G#6", 166122/100), ("Ab6", 166122/100), ("A6", 176000/100),
   ("A#6", 186466/100), ("Bb6", 186466/100), ("B6", 197553/100)]

/-- noteToFreq (audioEngine.ts lines 68-79): noteMap[note] || 440, where a
falsy looked-up value (only 0 would be falsy) falls back to 440. -/
def noteToFreq (note : String) : ℚ :=
  match noteMap.lookup note with
  | some f => if f = 0 then 440 else f
  | none => 440

/-- One scheduled automation event on an AudioParam. -/
inductive AutoEvent
  | setValue (target : ℚ) (time : ℚ)
  | linearRamp (target : ℚ) (time : ℚ)
  | expRamp (target : ℚ) (time : ℚ)
deriving DecidableEq

/-- Scheduled time of an automation event. -/
def AutoEvent.time : AutoEvent → ℚ
  | .setValue _ t => t
  | .linearRamp _ t => t
  | .expRamp _ t => t

/-- Target value of an automation event. -/
def AutoEvent.target : AutoEvent → ℚ
  | .setValue v _ => v
  | .linearRamp v _ => v
  | .expRamp v _ => v

/-- Whether an automation event is a ramp (as opposed to an instant set). -/
def AutoEvent.isRamp : AutoEvent → Bool
  | .setValue _ _ => false
  | .linearRamp _ _ => true
  | .expRamp _ _ => true

/-- The gain envelope scheduled by playNote (audioEngine.ts lines 112-123):
set 0 at t; then either an instant set to gain at t when attack < 0.005 or a
linear ramp to gain at t + attack; then an exponential ramp to
gain * sustain + 0.001 at t + attack + decay and an exponential ramp to
0.0001 at t + attack + decay + release. -/
def gainSchedule (config : SynthConfig) (t : ℚ) : List AutoEvent :=
  [AutoEvent.setValue 0 t] ++
    (if config.attack < 5/1000 then [AutoEvent.setValue config.gain t]
     else [AutoEvent.linearRamp config.gain (t + config.attack)]) ++
    [AutoEvent.expRamp (config.gain * config.sustain + 1/1000)
        (t + config.attack + config.decay),
     AutoEvent.expRamp (1/10000)
        (t + config.attack + config.decay + config.release)]

/-- The target of the last event scheduled at or before time tau, in
schedule order; 0 before any event. Ramp targets are attained at the ramp's
scheduled end time, so this step semantics reads the envelope exactly at the
event boundaries. -/
def lastTargetAt (events : List AutoEvent) (tau : ℚ) : ℚ :=
  events.foldl (fun acc e => if e.time ≤ tau then e.target else acc) 0

/-- One setTargetAtTime automation on the delay-mix gain. -/
inductive DelayEvent
  | setTarget (target : ℚ) (startTime : ℚ) (timeConstant : ℚ)
deriving DecidableEq

/-- DynamicsCompressor parameters (audioEngine.ts lines 28-32). -/
structure CompressorParams where
  threshold : ℚ
  knee : ℚ
  ratio : ℚ
  attack : ℚ
  release : ℚ
deriving DecidableEq

/-- One ephemeral voice created by playNote: oscillator settings, the
per-voice lowpass filter, the scheduled gain envelope, and start/stop
times (audioEngine.ts lines 92-131). -/
structure Voice where
  waveform : Waveform
  freq : ℚ
  detuneCents : Option ℚ
  filterFreq : ℚ
  filterQ : ℚ
  gainEvents : List AutoEvent
  startTime : ℚ
  stopTime : ℚ
deriving DecidableEq

/-- AudioEngine state: the nullable ctx / masterGain / delayGain fields are
modelled as created-flags, alongside the persistent graph's parameter
values, the scheduled delay-gain automation, the stored config, and the
voices launched so far. -/
structure EngineState where
  ctxCreated : Bool
  masterGainSet : Bool
  delayGainSet : Bool
  currentTime : ℚ
  masterGainValue : ℚ
  compressor : CompressorParams
  delayTimeValue : ℚ
  delayGainValue : ℚ
  feedbackGainValue : ℚ
  delayGainEvents : List DelayEvent
  config : SynthConfig
  voices : List Voice
deriving DecidableEq

/-- new AudioEngine(initialConfig) (audioEngine.ts lines 11-13): only the
config is stored; no audio node exists yet. -/
def freshEngine (config : SynthConfig) : EngineState :=
  { ctxCreated := false
    masterGainSet := false
    delayGainSet := false
    currentTime := 0
    masterGainValue := 0
    compressor := ⟨0, 0, 0, 0, 0⟩
    delayTimeValue := 0
    delayGainValue := 0
    feedbackGainValue := 0
    delayGainEvents := []
    config := config
    voices := [] }

/-- init (audioEngine.ts lines 15-59): idempotent; creates the persistent
graph with master gain 0.6, the fixed compressor parameters, delay time 0.3,
delay-mix gain initialized from the stored config, feedback gain 0.4. -/
def EngineState.init (st : EngineState) : EngineState :=
  match st.ctxCreated with
  | true => st
  | false =>
    { st with
      ctxCreated := true
      masterGainSet := true
      delayGainSet := true
      masterGainValue := 6/10
      compressor := ⟨-20, 30, 12, 2/1000, 25/100⟩
      delayTimeValue := 3/10
      delayGainValue := st.config.delayMix
      feedbackGainValue := 4/10 }

/-- updateConfig (audioEngine.ts lines 61-66): stores the new config; when
the delay gain and context exist, schedules
delayGain.gain.setTargetAtTime(newConfig.delayMix, currentTime, 0.1). -/
def updateConfig (st : EngineState) (newConfig : SynthConfig) : EngineState :=
  let st1 := { st with config := newConfig }
  if st1.delayGainSet && st1.ctxCreated then
    { st1 with delayGainEvents := st1.delayGainEvents ++
        [DelayEvent.setTarget newConfig.delayMix st1.currentTime (1/10)] }
  else st1

/-- The voice built by playNote (audioEngine.ts lines 92-131) from the
active config: oscillator waveform and frequency, detune applied only when
config.detune is present and nonzero (JavaScript truthiness of
`if (this.config.detune)`), lowpass filter at config.filterFreq with Q = 5,
the gain envelope of gainSchedule, start at t and stop at
t + attack + decay + release + 0.1. -/
def mkVoice (config : SynthConfig) (freq t : ℚ) : Voice :=
  { waveform := config.waveform
    freq := freq
    detuneCents :=
      match config.detune with
      | some d => if d = 0 then none else some d
      | none => none
    filterFreq := config.filterFreq
    filterQ := 5
    gainEvents := gainSchedule config t
    startTime := t
    stopTime := t + config.attack + config.decay + config.release + 1/10 }

/-- playNote (audioEngine.ts lines 81-139). Before init has created the
context and master gain it returns immediately with no effect (line 82).
The only statement in its body that can throw is
exponentialRampToValueAtTime, which raises a RangeError exactly when its
target value is 0; the first ramp's target is gain * sustain + 0.001 and the
second's is the constant 0.0001. Otherwise a new voice is created from the
stored config and appended. -/
def playNote (st : EngineState) (note : String) :
    Except Unit (EngineState × Option Voice) :=
  if !st.ctxCreated || !st.masterGainSet then
    Except.ok (st, none)
  else if st.config.gain * st.config.sustain + 1/1000 = 0 then
    Except.error ()
  else
    let v := mkVoice st.config (noteToFreq note) st.currentTime
    Except.ok ({ st with voices := st.voices ++ [v] }, some v)

/-! ### Helper lemmas: list updates and the string loop -/

/-- Setting slot i leaves every other slot's read value unchanged. -/
theorem getD_set_ne (l : List ℚ) (v d : ℚ) :
    ∀ (i j : ℕ), i ≠ j → (l.set i v).getD j d = l.getD j d := by
  induction l with
  | nil => intro i j _; rfl
  | cons a t ih =>
    intro i j hij
    cases i with
    | zero =>
      cases j with
      | zero => exact absurd rfl hij
      | succ j => simp
    | succ i =>
      cases j with
      | zero => simp
      | succ j =>
        simpa using ih i j (fun h => hij (by rw [h]))

/-- Setting an in-range slot i makes slot i read the written value. -/
theorem getD_set_self (l : List ℚ) (v d : ℚ) :
    ∀ i, i < l.length → (l.set i v).getD i d = v := by
  induction l with
  | nil => intro i h; simp at h
  | cons a t ih =>
    intro i h
    cases i with
    | zero => simp
    | succ i => simpa using ih i (by simpa using h)

/-- Every index emitted by the string loop comes from the index list. -/
theorem stringsPass_sub (lastX x y now : ℚ) :
    ∀ (L : List ℕ) (deb : List ℚ) (s : ℕ),
      s ∈ (stringsPass lastX x y now L deb).1 → s ∈ L := by
  intro L
  induction L with
  | nil => intro deb s h; simp [stringsPass] at h
  | cons a rest ih =>
    intro deb s h
    simp only [stringsPass] at h
    by_cases hf : fireCond lastX x y now (deb.getD a 0) (stringX a) = true
    · rw [if_pos hf] at h
      rcases List.mem_cons.mp h with h1 | h2
      · simp [h1]
      · exact List.mem_cons_of_mem _ (ih _ _ h2)
    · rw [if_neg hf] at h
      exact List.mem_cons_of_mem _ (ih _ _ h)

/-- Every index emitted by the string loop passed the crossing test. -/
theorem stringsPass_crossed (lastX x y now : ℚ) :
    ∀ (L : List ℕ) (deb : List ℚ) (s : ℕ),
      s ∈ (stringsPass lastX x y now L deb).1 →
      crossedB lastX x (stringX s) = true := by
  intro L
  induction L with
  | nil => intro deb s h; simp [stringsPass] at h
  | cons a rest ih =>
    intro deb s h
    simp only [stringsPass] at h
    by_cases hf : fireCond lastX x y now (deb.getD a 0) (stringX a) = true
    · rw [if_pos hf] at h
      rcases List.mem_cons.mp h with h1 | h2
      · subst h1
        exact (Bool.and_eq_true _ _).mp ((Bool.and_eq_true _ _).mp hf).1 |>.1
      · exact ih _ _ h2
    · rw [if_neg hf] at h
      exact ih _ _ h

/-- Over a duplicate-free index list, an index is emitted iff it is in the
list and its firing condition holds against the debounce array as given at
entry: each loop iteration writes only its own slot, so iterations do not
interfere. -/
theorem stringsPass_mem_iff (lastX x y now : ℚ) :
    ∀ (L : List ℕ) (deb : List ℚ) (s : ℕ), L.Nodup →
      (s ∈ (stringsPass lastX x y now L deb).1 ↔
        s ∈ L ∧ fireCond lastX x y now (deb.getD s 0) (stringX s) = true) := by
  intro L
  induction L with
  | nil => intro deb s _; simp [stringsPass]
  | cons a rest ih =>
    intro deb s hnd
    have hna : a ∉ rest := (List.nodup_cons.mp hnd).1
    have hndr : rest.Nodup := (List.nodup_cons.mp hnd).2
    simp only [stringsPass]
    by_cases hf : fireCond lastX x y now (deb.getD a 0) (stringX a) = true
    · rw [if_pos hf]
      by_cases hsa : s = a
      · subst hsa
        constructor
        · intro _; exact ⟨List.mem_cons_self _ _, hf⟩
        · intro _; exact List.mem_cons_self _ _
      · constructor
        · intro h
          rcases List.mem_cons.mp h with h1 | h2
          · exact absurd h1 hsa
          · have h3 := (ih (deb.set a now) s hndr).mp h2
            rw [getD_set_ne deb now 0 a s (fun he => hsa he.symm)] at h3
            exact ⟨List.mem_cons_of_mem _ h3.1, h3.2⟩
        · intro ⟨hmem, hfc⟩
          have hmr : s ∈ rest := (List.mem_cons.mp hmem).resolve_left hsa
          apply List.mem_cons_of_mem
          apply (ih (deb.set a now) s hndr).mpr
          rw [getD_set_ne deb now 0 a s (fun he => hsa he.symm)]
          exact ⟨hmr, hfc⟩
    · rw [if_neg hf]
      by_cases hsa : s = a
      · subst hsa
        constructor
        · intro h
          exact absurd ((ih deb s hndr).mp h).1 hna
        · intro ⟨_, hfc⟩
          exact absurd hfc hf
      · rw [ih deb s hndr]
        constructor
        · intro ⟨hm, hfc⟩; exact ⟨List.mem_cons_of_mem _ hm, hfc⟩
        · intro ⟨hm, hfc⟩
          exact ⟨(List.mem_cons.mp hm).resolve_left hsa, hfc⟩

/-- A slot whose index is not emitted keeps its entry value. -/
theorem stringsPass_deb_of_not_mem (lastX x y now : ℚ) :
    ∀ (L : List ℕ) (deb : List ℚ) (t : ℕ),
      t ∉ (stringsPass lastX x y now L deb).1 →
      (stringsPass lastX x y now L deb).2.getD t 0 = deb.getD t 0 := by
  intro L
  induction L with
  | nil => intro deb t _; rfl
  | cons a rest ih =>
    intro deb t h
    simp only [stringsPass] at h ⊢
    by_cases hf : fireCond lastX x y now (deb.getD a 0) (stringX a) = true
    · rw [if_pos hf] at h ⊢
      have hta : t ≠ a := fun he => h (by rw [he]; exact List.mem_cons_self _ _)
      have hnr : t ∉ (stringsPass lastX x y now rest (deb.set a now)).1 :=
        fun hm => h (List.mem_cons_of_mem _ hm)
      rw [ih (deb.set a now) t hnr]
      exact getD_set_ne deb now 0 a t (fun he => hta he.symm)
    · rw [if_neg hf] at h ⊢
      exact ih deb t h

/-- A slot whose index is emitted reads now in the final debounce array. -/
theorem stringsPass_deb_of_mem (lastX x y now : ℚ) :
    ∀ (L : List ℕ) (deb : List ℚ) (t : ℕ), L.Nodup → t < deb.length →
      t ∈ (stringsPass lastX x y now L deb).1 →
      (stringsPass lastX x y now L deb).2.getD t 0 = now := by
  intro L
  induction L with
  | nil => intro deb t _ _ h; simp [stringsPass] at h
  | cons a rest ih =>
    intro deb t hnd hlen h
    have hna : a ∉ rest := (List.nodup_cons.mp hnd).1
    have hndr : rest.Nodup := (List.nodup_cons.mp hnd).2
    simp only [stringsPass] at h ⊢
    by_cases hf : fireCond lastX x y now (deb.getD a 0) (stringX a) = true
    · rw [if_pos hf] at h ⊢
      rcases List.mem_cons.mp h with h1 | h2
      · subst h1
        have hnr : t ∉ (stringsPass lastX x y now rest (deb.set t now)).1 :=
          fun hm => hna (stringsPass_sub lastX x y now rest _ t hm)
        rw [stringsPass_deb_of_not_mem lastX x y now rest (deb.set t now) t hnr]
        exact getD_set_self deb now 0 t hlen
      · exact ih (deb.set a now) t hndr (by simpa using hlen) h2
    · rw [if_neg hf] at h ⊢
      exact ih deb t hndr hlen h

/-- If no index is emitted, the debounce array is returned unchanged. -/
theorem stringsPass_deb_of_nil (lastX x y now : ℚ) :
    ∀ (L : List ℕ) (deb : List ℚ),
      (stringsPass lastX x y now L deb).1 = [] →
      (stringsPass lastX x y now L deb).2 = deb := by
  intro L
  induction L with
  | nil => intro deb _; rfl
  | cons a rest ih =>
    intro deb h
    simp only [stringsPass] at h ⊢
    by_cases hf : fireCond lastX x y now (deb.getD a 0) (stringX a) = true
    · rw [if_pos hf] at h
      exact absurd h (List.cons_ne_nil _ _)
    · rw [if_neg hf] at h ⊢
      exact ih deb h

/-- The firing condition, spelled out as a proposition. -/
theorem fireCond_iff (lastX x y now debS sx : ℚ) :
    fireCond lastX x y now debS sx = true ↔
      ((lastX < sx ∧ sx ≤ x) ∨ (lastX > sx ∧ sx ≥ x)) ∧
      (1/10 < y ∧ y < 9/10) ∧ now - debS > debounceTime := by
  simp only [fireCond, crossedB, Bool.and_eq_true, Bool.or_eq_true,
    decide_eq_true_eq, ge_iff_le, gt_iff_lt]
  tauto

/-- If the claimed velocity quotient exceeds the positive threshold, the
time delta is positive: division by zero yields 0 in the rationals exactly
as the source's dt-guard yields velocity 0, and a negative dt makes the
quotient nonpositive. -/
theorem dt_pos_of_velocity (dx dt : ℚ)
    (h : velocityThreshold < |dx| / dt) : 0 < dt := by
  have hthr : (0:ℚ) < velocityThreshold := by norm_num [velocityThreshold]
  by_contra hle
  push_neg at hle
  rcases eq_or_lt_of_le hle with heq | hlt
  · rw [heq, div_zero] at h
    linarith
  · have hnp : |dx| / dt ≤ 0 :=
      div_nonpos_of_nonneg_of_nonpos (abs_nonneg dx) (le_of_lt hlt)
    linarith

/-- An open finger with a prior record and an above-threshold velocity runs
the string loop over all NUM_STRINGS strings. -/
theorem fingerUpdate_open_fast (rawX y now : ℚ) (lastD : FingerData)
    (deb : List ℚ)
    (hv : velocityThreshold < |(1 - rawX) - lastD.x| / (now - lastD.time)) :
    fingerUpdate true rawX y now (some lastD) deb =
      ⟨(stringsPass lastD.x (1 - rawX) y now (List.range NUM_STRINGS) deb).1,
       (stringsPass lastD.x (1 - rawX) y now (List.range NUM_STRINGS) deb).2,
       ⟨1 - rawX, now⟩⟩ := by
  have hdt : 0 < now - lastD.time := dt_pos_of_velocity _ _ hv
  simp only [fingerUpdate]
  rw [if_pos hdt, if_pos hv]

/-! ### Claims about the gesture trigger engine -/

/-- Claim C1: for a per-finger update of an OPEN finger with a prior
FingerTrackState whose velocity quotient exceeds the 0.00015 threshold, a
string s in 0..NUM_STRINGS-1 emits a trigger iff the position interval spans
the string's x-coordinate, the fingertip's y is strictly between 0.1 and
0.9, and now minus that string's debounce timestamp exceeds the 40 ms
window; an accepted trigger sets only that string's debounce slot to now,
leaving every other slot unchanged. -/
theorem openFingerTriggerIff (rawX y now : ℚ) (lastD : FingerData)
    (deb : List ℚ) (s : ℕ) (hs : s < NUM_STRINGS)
    (hlen : deb.length = NUM_STRINGS)
    (hv : velocityThreshold < |(1 - rawX) - lastD.x| / (now - lastD.time)) :
    (s ∈ (fingerUpdate true rawX y now (some lastD) deb).triggers ↔
      ((lastD.x < stringX s ∧ stringX s ≤ 1 - rawX) ∨
       (lastD.x > stringX s ∧ stringX s ≥ 1 - rawX)) ∧
      (1/10 < y ∧ y < 9/10) ∧ now - deb.getD s 0 > debounceTime) ∧
    (s ∈ (fingerUpdate true rawX y now (some lastD) deb).triggers →
      (fingerUpdate true rawX y now (some lastD) deb).debounce.getD s 0 = now) ∧
    (∀ t, t ∉ (fingerUpdate true rawX y now (some lastD) deb).triggers →
      (fingerUpdate true rawX y now (some lastD) deb).debounce.getD t 0 =
        deb.getD t 0) := by
  rw [fingerUpdate_open_fast rawX y now lastD deb hv]
  refine ⟨?_, ?_, ?_⟩
  · rw [stringsPass_mem_iff lastD.x (1 - rawX) y now (List.range NUM_STRINGS)
      deb s (List.nodup_range _), fireCond_iff]
    simp [List.mem_range, hs]
  · intro hmem
    exact stringsPass_deb_of_mem lastD.x (1 - rawX) y now
      (List.range NUM_STRINGS) deb s (List.nodup_range _)
      (by rw [hlen]; exact hs) hmem
  · intro t ht
    exact stringsPass_deb_of_not_mem lastD.x (1 - rawX) y now
      (List.range NUM_STRINGS) deb t ht

/-- Witness for C1: in the concrete fast-motion scenario, string 0 does
trigger, obtained from the iff with every hypothesis discharged. -/
theorem openFingerTriggerIffWitness :
    0 ∈ (fingerUpdate true (4/5) (1/2) 1010 (some ⟨1/20, 1000⟩)
      (List.replicate NUM_STRINGS 0)).triggers :=
  (openFingerTriggerIff (4/5) (1/2) 1010 ⟨1/20, 1000⟩
    (List.replicate NUM_STRINGS 0) 0
    (by norm_num [NUM_STRINGS])
    (by simp [NUM_STRINGS])
    (by with_unfolding_all decide)).1.mpr
    (by with_unfolding_all decide)

/-- Claim C2 counterexample: the claim that every string index s in
0..NUM_STRINGS-1 is tested at s / (NUM_STRINGS + 1) is false: the code
places string 0 at 1/13, whereas the claimed formula would put it at 0. -/
theorem stringPositionCounterexample :
    stringX 0 = 1/13 ∧
    ¬ (∀ s : ℕ, s < NUM_STRINGS →
        stringX s = (s : ℚ) / ((NUM_STRINGS : ℚ) + 1)) := by
  have h13 : stringX 0 = 1/13 := by with_unfolding_all decide
  refine ⟨h13, ?_⟩
  intro hall
  have h0 := hall 0 (by norm_num [NUM_STRINGS])
  rw [Nat.cast_zero, zero_div] at h0
  rw [h13] at h0
  norm_num at h0

/-- Claim C2 amended: for every string index s (in particular every s in
0..NUM_STRINGS-1), the horizontal position tested for crossings equals
(s + 1) / (NUM_STRINGS + 1), so string 0 sits at x = 1/13, not at 0. -/
theorem stringPositionAmended (s : ℕ) :
    stringX s = ((s : ℚ) + 1) / ((NUM_STRINGS : ℚ) + 1) := by
  unfold stringX stringSpacing
  ring

/-- Claim C3 counterexample: with 12 strings, an OPEN finger tracked from
x = 0.05 (rawX = 0.95) to x = 0.20 (rawX = 0.8) in 10 ms at y = 0.5, with
all debounce timestamps stale, triggers strings 0 AND 1 — string 1 at
x = 2/13 ≈ 0.154 also lies in the crossed interval — so the claimed single
trigger for string 0 alone is false. -/
theorem scenarioSingleTriggerCounterexample :
    (fingerUpdate true (4/5) (1/2) 1010 (some ⟨1/20, 1000⟩)
      (List.replicate NUM_STRINGS 0)).triggers = [0, 1] ∧
    (fingerUpdate true (4/5) (1/2) 1010 (some ⟨1/20, 1000⟩)
      (List.replicate NUM_STRINGS 0)).triggers ≠ [0] := by
  with_unfolding_all decide

/-- Claim C3 amended: the scenario produces exactly two trigger events, for
string indices 0 and 1, mapped through the active instrument's note list
(the default pentatonic scale) to notes[0] = "C4" and notes[1] = "D4". -/
theorem scenarioTwoTriggersAmended :
    (fingerUpdate true (4/5) (1/2) 1010 (some ⟨1/20, 1000⟩)
      (List.replicate NUM_STRINGS 0)).triggers = [0, 1] ∧
    ((fingerUpdate true (4/5) (1/2) 1010 (some ⟨1/20, 1000⟩)
      (List.replicate NUM_STRINGS 0)).triggers.map
        (noteForIndex SCALE_PENTATONIC_C)) = ["C4", "D4"] := by
  with_unfolding_all decide

/-- Claim C4 counterexample: a frame whose only hand has a malformed
(empty) landmark array makes the physics step raise an error that escapes
gameLoopPhysics — the update is not skipped and the exception does
propagate past the frame's processing, because the source's try/catch wraps
only the detector call. -/
theorem malformedHandCounterexample :
    gameLoopPhysics (some [[]]) 0 initialPhysState = Except.error () := rfl

/-- Binding a successful Except computation continues with its value. -/
theorem exceptBind_ok {α β : Type} (a : α) (f : α → Except Unit β) :
    (Except.ok a >>= f) = f a := rfl

/-- Binding a failed Except computation propagates the error. -/
theorem exceptBind_error {α β : Type} (e : Unit) (f : α → Except Unit β) :
    ((Except.error e : Except Unit α) >>= f) = Except.error e := rfl

/-- A missing landmark index makes the access fail. -/
theorem lmGet_eq_none (l : List Landmark) (i : ℕ) (hh : l.get? i = none) :
    lmGet l i = Except.error () := by
  unfold lmGet
  rw [hh]

/-- A present landmark index makes the access succeed. -/
theorem lmGet_eq_some (l : List Landmark) (i : ℕ) (p : Landmark)
    (hh : l.get? i = some p) : lmGet l i = Except.ok p := by
  unfold lmGet
  rw [hh]

/-- If the wrist, PIP or tip index is missing from a hand's landmark
array, the openness test throws. -/
theorem isFingerOpenE_error (h : List Landmark) (tipIdx pipIdx wristIdx : ℕ)
    (hmiss : h.get? wristIdx = none ∨ h.get? pipIdx = none ∨
      h.get? tipIdx = none) :
    isFingerOpenE h tipIdx pipIdx wristIdx = Except.error () := by
  rcases hmiss with h0 | hp | ht
  · simp only [isFingerOpenE]
    rw [lmGet_eq_none h wristIdx h0, exceptBind_error]
  · cases h0 : h.get? wristIdx with
    | none =>
      simp only [isFingerOpenE]
      rw [lmGet_eq_none h wristIdx h0, exceptBind_error]
    | some w =>
      simp only [isFingerOpenE]
      rw [lmGet_eq_some h wristIdx w h0, exceptBind_ok,
        lmGet_eq_none h pipIdx hp, exceptBind_error]
  · cases h0 : h.get? wristIdx with
    | none =>
      simp only [isFingerOpenE]
      rw [lmGet_eq_none h wristIdx h0, exceptBind_error]
    | some w =>
      cases hp2 : h.get? pipIdx with
      | none =>
        simp only [isFingerOpenE]
        rw [lmGet_eq_some h wristIdx w h0, exceptBind_ok,
          lmGet_eq_none h pipIdx hp2, exceptBind_error]
      | some p =>
        simp only [isFingerOpenE]
        rw [lmGet_eq_some h wristIdx w h0, exceptBind_ok,
          lmGet_eq_some h pipIdx p hp2, exceptBind_ok,
          lmGet_eq_none h tipIdx ht, exceptBind_error]

/-- A finger whose wrist, PIP or tip index is missing makes its per-finger
step throw. -/
theorem fingerStepE_error (h : List Landmark) (handIndex tip pip : ℕ)
    (now : ℚ) (st : PhysState)
    (hmiss : h.get? 0 = none ∨ h.get? pip = none ∨ h.get? tip = none) :
    fingerStepE h handIndex tip pip now st = Except.error () := by
  simp only [fingerStepE]
  rw [isFingerOpenE_error h tip pip 0 hmiss, exceptBind_error]

/-- If some finger pair in the list has a missing wrist, PIP or tip index,
the hand's finger loop throws, whatever the states threaded so far. -/
theorem handStepE_error_aux (h : List Landmark) (handIndex : ℕ) (now : ℚ) :
    ∀ (pairs : List (ℕ × ℕ)),
      (∃ tp ∈ pairs, h.get? 0 = none ∨ h.get? tp.2 = none ∨
        h.get? tp.1 = none) →
      ∀ st, handStepE h handIndex now pairs st = Except.error () := by
  intro pairs
  induction pairs with
  | nil =>
    rintro ⟨tp, htp, _⟩ st
    simp at htp
  | cons a rest ih =>
    rintro ⟨tp, htp, hmiss⟩ st
    obtain ⟨tip, pip⟩ := a
    rcases List.mem_cons.mp htp with rfl | hrest
    · simp only [handStepE]
      rw [fingerStepE_error h handIndex tip pip now st hmiss,
        exceptBind_error]
    · cases hf : fingerStepE h handIndex tip pip now st with
      | error e =>
        simp only [handStepE]
        rw [hf, exceptBind_error]
      | ok r =>
        simp only [handStepE]
        rw [hf, exceptBind_ok, ih ⟨tp, hrest, hmiss⟩ r.1, exceptBind_error]

/-- A hand with fewer than the 21 expected landmarks is missing at least
the pinky tip index 20, so its finger loop throws. -/
theorem handStepE_error_short (h : List Landmark) (handIndex : ℕ) (now : ℚ)
    (st : PhysState) (hlen : h.length < 21) :
    handStepE h handIndex now fingerPairs st = Except.error () :=
  handStepE_error_aux h handIndex now fingerPairs
    ⟨(20, 18), by simp [fingerPairs],
      Or.inr (Or.inr (List.get?_eq_none.mpr (by omega)))⟩ st

/-- If any hand of the frame has fewer than the 21 expected landmarks, the
hand loop throws, whatever hand index offset and state it starts from. -/
theorem processPhysicsE_error (now : ℚ) :
    ∀ (hands : List (List Landmark)) (handIndex : ℕ) (st : PhysState),
      (∃ h ∈ hands, h.length < 21) →
      processPhysicsE now hands handIndex st = Except.error () := by
  intro hands
  induction hands with
  | nil =>
    rintro hi st ⟨h, hm, _⟩
    simp at hm
  | cons hand rest ih =>
    rintro hi st ⟨h, hm, hlen⟩
    rcases List.mem_cons.mp hm with rfl | hrest
    · simp only [processPhysicsE]
      rw [handStepE_error_short h hi now st hlen, exceptBind_error]
    · cases hh : handStepE hand hi now fingerPairs st with
      | error e =>
        simp only [processPhysicsE]
        rw [hh, exceptBind_error]
      | ok r =>
        simp only [processPhysicsE]
        rw [hh, exceptBind_ok, ih (hi + 1) r.1 ⟨h, hrest, hlen⟩,
          exceptBind_error]

/-- Claim C4 amended: for every frame containing a malformed hand — a
landmark array with fewer than the 21 expected entries, so an accessed
wrist/PIP/tip index is missing — the per-frame update is not skipped: the
landmark access throws and the exception propagates out of processPhysics
and past that frame's physics processing (only the landmark-detection call
is guarded), whatever the hand's position in the frame, the frame time and
the physics state. -/
theorem malformedHandErrorPropagates (hands : List (List Landmark))
    (now : ℚ) (st : PhysState) (hmal : ∃ h ∈ hands, h.length < 21) :
    gameLoopPhysics (some hands) now st = Except.error () := by
  simp only [gameLoopPhysics, processPhysics]
  exact processPhysicsE_error now hands 0 st hmal

/-- Witness for the amended C4: a frame whose first hand is complete (21
landmarks) and whose second hand is missing only the pinky tip index 20
still makes the frame's physics step throw. -/
theorem malformedHandErrorPropagatesWitness :
    gameLoopPhysics
      (some [List.replicate 21 ⟨0, 0⟩, List.replicate 20 ⟨0, 0⟩]) 0
      initialPhysState = Except.error () :=
  malformedHandErrorPropagates
    [List.replicate 21 ⟨0, 0⟩, List.replicate 20 ⟨0, 0⟩] 0 initialPhysState
    ⟨List.replicate 20 ⟨0, 0⟩,
      List.mem_cons_of_mem _ (List.mem_cons_self _ _), by simp⟩

/-- Claim C8: a CLOSED finger's update emits no trigger for any string and
leaves the debounce array untouched, but still overwrites the finger's
track state to (mirrored x, now); consequently it coincides with an OPEN
update on the same inputs whenever that update fired no triggers. -/
theorem closedFingerUpdate (rawX y now : ℚ) (lastData : Option FingerData)
    (deb : List ℚ) :
    (fingerUpdate false rawX y now lastData deb).triggers = [] ∧
    (fingerUpdate false rawX y now lastData deb).debounce = deb ∧
    (fingerUpdate false rawX y now lastData deb).track = ⟨1 - rawX, now⟩ ∧
    ((fingerUpdate true rawX y now lastData deb).triggers = [] →
      fingerUpdate true rawX y now lastData deb =
        fingerUpdate false rawX y now lastData deb) := by
  refine ⟨rfl, rfl, rfl, ?_⟩
  intro h
  cases lastData with
  | none => rfl
  | some lastD =>
    simp only [fingerUpdate] at h ⊢
    by_cases hv : (if 0 < now - lastD.time
        then |1 - rawX - lastD.x| / (now - lastD.time) else 0) >
        velocityThreshold
    · rw [if_pos hv] at h ⊢
      have h1 : (stringsPass lastD.x (1 - rawX) y now
          (List.range NUM_STRINGS) deb).1 = [] := h
      have h2 := stringsPass_deb_of_nil lastD.x (1 - rawX) y now
        (List.range NUM_STRINGS) deb h1
      rw [h1, h2]
    · rw [if_neg hv] at h ⊢

/-- Witness for C8: with no prior record, the open and closed updates agree
on a concrete input (the open update fired no triggers). -/
theorem closedFingerUpdateWitness :
    fingerUpdate true (1/2) (1/2) 5 none (List.replicate NUM_STRINGS 0) =
      fingerUpdate false (1/2) (1/2) 5 none (List.replicate NUM_STRINGS 0) :=
  (closedFingerUpdate (1/2) (1/2) 5 none (List.replicate NUM_STRINGS 0)).2.2.2 rfl

/-- Claim C10: if the finger's last recorded position lies exactly on a
string's x-coordinate, that string is never triggered by this update, for
any current position, velocity or y: both crossing tests require a strict
inequality on last.x. -/
theorem restingFingerNoTrigger (rawX y now : ℚ) (lastD : FingerData)
    (deb : List ℚ) (s : ℕ) (h : lastD.x = stringX s) :
    s ∉ (fingerUpdate true rawX y now (some lastD) deb).triggers := by
  intro hmem
  simp only [fingerUpdate] at hmem
  by_cases hv : (if 0 < now - lastD.time
      then |1 - rawX - lastD.x| / (now - lastD.time) else 0) >
      velocityThreshold
  · rw [if_pos hv] at hmem
    have hc := stringsPass_crossed lastD.x (1 - rawX) y now
      (List.range NUM_STRINGS) deb s hmem
    rw [h] at hc
    simp only [crossedB, Bool.or_eq_true, Bool.and_eq_true,
      decide_eq_true_eq] at hc
    rcases hc with ⟨h1, _⟩ | ⟨h1, _⟩
    · exact lt_irrefl _ h1
    · exact lt_irrefl _ h1
  · rw [if_neg hv] at hmem
    simp at hmem

/-- Witness for C10: a finger resting exactly on string 3 and then moving
off it does not pluck string 3. -/
theorem restingFingerNoTriggerWitness :
    3 ∉ (fingerUpdate true 0 (1/2) 10 (some ⟨stringX 3, 0⟩)
      (List.replicate NUM_STRINGS 0)).triggers :=
  restingFingerNoTrigger 0 (1/2) 10 ⟨stringX 3, 0⟩
    (List.replicate NUM_STRINGS 0) 3 rfl

/-! ### Helper lemmas: association-list lookup and the openness test -/

/-- Over duplicate-free keys, lookup finds exactly the paired value. -/
theorem lookup_of_mem_of_nodupKeys :
    ∀ (l : List (String × ℚ)), (l.map Prod.fst).Nodup →
      ∀ name freq, (name, freq) ∈ l → l.lookup name = some freq := by
  intro l
  induction l with
  | nil => intro _ name freq h; simp at h
  | cons p rest ih =>
    intro hnd name freq hmem
    obtain ⟨k, v⟩ := p
    simp only [List.map_cons, List.nodup_cons] at hnd
    rcases List.mem_cons.mp hmem with heq | hrest
    · obtain ⟨h1, h2⟩ := Prod.mk.injEq k v name freq ▸ heq.symm
      subst h1; subst h2
      simp [List.lookup]
    · have hne : name ≠ k := by
        intro he; subst he
        exact hnd.1 (List.mem_map.mpr ⟨(name, freq), hrest, rfl⟩)
      have hb : (name == k) = false := beq_eq_false_iff_ne.mpr hne
      simp only [List.lookup, hb]
      exact ih hnd.2 name freq hrest

/-- A key absent from the list looks up to none. -/
theorem lookup_of_not_mem :
    ∀ (l : List (String × ℚ)) (name : String),
      (∀ freq, (name, freq) ∉ l) → l.lookup name = none := by
  intro l
  induction l with
  | nil => intro name _; rfl
  | cons p rest ih =>
    intro name h
    obtain ⟨k, v⟩ := p
    have hne : name ≠ k := by
      intro he; subst he
      exact h v (List.mem_cons_self _ _)
    have hb : (name == k) = false := beq_eq_false_iff_ne.mpr hne
    simp only [List.lookup, hb]
    exact ih name (fun freq hm => h freq (List.mem_cons_of_mem _ hm))

/-- The note table's 119 keys are pairwise distinct. -/
theorem noteMapKeysNodup : (noteMap.map Prod.fst).Nodup := by decide

/-- No reference frequency in the note table is zero, so the JavaScript
falsy-fallback branch of noteToFreq is never taken for a table hit. -/
theorem noteMapValuesNonzero : ∀ p ∈ noteMap, ¬ (p.2 = (0:ℚ)) := by
  with_unfolding_all decide

/-- The square-comparison in the embedding of isFingerOpen agrees with the
source's Math.hypot formulation over the reals: for the wrist, PIP and tip
coordinates, sqrt distance comparison against the 0.9 factor is equivalent
to the squared comparison against 0.81. -/
theorem isFingerOpen_matches_hypot (wx wy px py tx ty : ℚ) :
    (decide (((tx - wx) ^ 2 + (ty - wy) ^ 2 : ℚ) >
        (9/10) ^ 2 * ((px - wx) ^ 2 + (py - wy) ^ 2)) = true)
    ↔ Real.sqrt (((tx : ℝ) - wx) ^ 2 + ((ty : ℝ) - wy) ^ 2) >
        (9/10) * Real.sqrt (((px : ℝ) - wx) ^ 2 + ((py : ℝ) - wy) ^ 2) := by
  rw [decide_eq_true_eq]
  have h9 : ((9:ℝ)/10) * Real.sqrt (((px:ℝ) - wx) ^ 2 + ((py:ℝ) - wy) ^ 2)
      = Real.sqrt ((9/10) ^ 2 * (((px:ℝ) - wx) ^ 2 + ((py:ℝ) - wy) ^ 2)) := by
    rw [Real.sqrt_mul (by positivity), Real.sqrt_sq (by norm_num)]
  rw [gt_iff_lt, gt_iff_lt, h9, Real.sqrt_lt_sqrt_iff (by positivity)]
  rw [show ((9:ℝ)/10) ^ 2 * (((px:ℝ) - wx) ^ 2 + ((py:ℝ) - wy) ^ 2)
      = (((9/10) ^ 2 * ((px - wx) ^ 2 + (py - wy) ^ 2) : ℚ) : ℝ) by
    push_cast; ring]
  rw [show ((tx:ℝ) - wx) ^ 2 + ((ty:ℝ) - wy) ^ 2
      = (((tx - wx) ^ 2 + (ty - wy) ^ 2 : ℚ) : ℝ) by push_cast; ring]
  exact Iff.symm Rat.cast_lt

/-! ### Claims about the audio synthesis engine -/

/-- Claim C5: every name in the fixed C0..B6 table resolves to its
documented reference frequency exactly — in particular "A4" to 440 Hz and
"C4" to 261.63 Hz — and every name not in the table resolves to 440. -/
theorem noteToFreqTable :
    (∀ name freq, (name, freq) ∈ noteMap → noteToFreq name = freq) ∧
    noteToFreq "A4" = 440 ∧
    noteToFreq "C4" = 26163/100 ∧
    (∀ name, (∀ freq, (name, freq) ∉ noteMap) → noteToFreq name = 440) := by
  refine ⟨?_, ?_, ?_, ?_⟩
  · intro name freq hmem
    have hl := lookup_of_mem_of_nodupKeys noteMap noteMapKeysNodup name freq hmem
    have hnz := noteMapValuesNonzero (name, freq) hmem
    simp only [noteToFreq, hl]
    simp only at hnz
    rw [if_neg hnz]
  · have hl : List.lookup "A4" noteMap = some (44000/100) := rfl
    simp only [noteToFreq, hl]
    norm_num
  · have hl : List.lookup "C4" noteMap = some (26163/100) := rfl
    simp only [noteToFreq, hl]
    norm_num
  · intro name h
    have hl := lookup_of_not_mem noteMap name h
    simp [noteToFreq, hl]

/-- Witness for C5: the table entry for "C0" resolves to 16.35 Hz. -/
theorem noteToFreqTableWitness :
    noteToFreq "C0" = 1635/100 :=
  noteToFreqTable.1 "C0" (1635/100) (List.mem_cons_self _ _)

/-- Claim C6: when the configured attack is below the 0.005 s threshold,
playNote schedules an instant jump of the voice gain to the configured gain
value at trigger time t — no ramp event occurs before the decay phase — so
the envelope's value just after t is the configured gain; at or above the
threshold it schedules a linear ramp from 0 at t to the gain value attained
at t + attack. -/
theorem attackEnvelopeCases (config : SynthConfig) (t : ℚ)
    (ha : 0 ≤ config.attack) (hd : 0 < config.decay)
    (hr : 0 ≤ config.release) :
    (config.attack < 5/1000 →
      AutoEvent.setValue config.gain t ∈ gainSchedule config t ∧
      (∀ e ∈ gainSchedule config t, e.isRamp = true →
        t + config.attack + config.decay ≤ e.time) ∧
      lastTargetAt (gainSchedule config t) t = config.gain) ∧
    (5/1000 ≤ config.attack →
      AutoEvent.linearRamp config.gain (t + config.attack) ∈
        gainSchedule config t ∧
      lastTargetAt (gainSchedule config t) t = 0 ∧
      lastTargetAt (gainSchedule config t) (t + config.attack) =
        config.gain) := by
  have h3 : ¬ (t + config.attack + config.decay ≤ t) := by linarith
  have h4 : ¬ (t + config.attack + config.decay + config.release ≤ t) := by
    linarith
  constructor
  · intro hfast
    have hsch : gainSchedule config t =
        [AutoEvent.setValue 0 t, AutoEvent.setValue config.gain t,
         AutoEvent.expRamp (config.gain * config.sustain + 1/1000)
           (t + config.attack + config.decay),
         AutoEvent.expRamp (1/10000)
           (t + config.attack + config.decay + config.release)] := by
      simp [gainSchedule, if_pos hfast]
    refine ⟨by rw [hsch]; simp, ?_, ?_⟩
    · intro e he hramp
      rw [hsch] at he
      simp only [List.mem_cons, List.not_mem_nil, or_false] at he
      rcases he with rfl | rfl | rfl | rfl
      · simp [AutoEvent.isRamp] at hramp
      · simp [AutoEvent.isRamp] at hramp
      · simp [AutoEvent.time]
      · simp only [AutoEvent.time]; linarith
    · rw [hsch]
      simp [lastTargetAt, AutoEvent.time, AutoEvent.target, h3, h4]
  · intro hslow
    have hna : ¬ (config.attack < 5/1000) := not_lt.mpr hslow
    have hsch : gainSchedule config t =
        [AutoEvent.setValue 0 t,
         AutoEvent.linearRamp config.gain (t + config.attack),
         AutoEvent.expRamp (config.gain * config.sustain + 1/1000)
           (t + config.attack + config.decay),
         AutoEvent.expRamp (1/10000)
           (t + config.attack + config.decay + config.release)] := by
      simp [gainSchedule, if_neg hna]
    have hap : (0:ℚ) < config.attack := lt_of_lt_of_le (by norm_num) hslow
    have h2 : ¬ (t + config.attack ≤ t) := by linarith
    have h5 : ¬ (t + config.attack + config.decay ≤ t + config.attack) := by
      linarith
    have h6 : ¬ (t + config.attack + config.decay + config.release ≤
        t + config.attack) := by linarith
    refine ⟨by rw [hsch]; simp, ?_, ?_⟩
    · rw [hsch]
      simp [lastTargetAt, AutoEvent.time, AutoEvent.target, h2, h3, h4]
    · rw [hsch]
      simp [lastTargetAt, AutoEvent.time, AutoEvent.target, h5, h6,
        le_of_lt hap]

/-- Witness for C6: an instant-attack configuration (attack = 0.001 s) puts
the envelope at its configured gain 0.15 immediately at the trigger time. -/
theorem attackEnvelopeCasesWitness :
    lastTargetAt (gainSchedule
      ⟨Waveform.square, 1/1000, 1/10, 1/10, 1/10, 3/20, 8000, 0, none⟩ 0) 0 =
      (3/20 : ℚ) :=
  ((attackEnvelopeCases
      ⟨Waveform.square, 1/1000, 1/10, 1/10, 1/10, 3/20, 8000, 0, none⟩ 0
      (by norm_num) (by norm_num) (by norm_num)).1 (by norm_num)).2.2

/-- Claim C7: calling playNote before init has created the audio context is
a no-op that returns the state unchanged with no voice and no error; and
for every note-name input, playNote returns without raising an error
whenever the stored config has nonnegative gain and sustain (the only
throwing statement targets gain * sustain + 0.001, which is then nonzero). -/
theorem playNoteBeforeInitNoop (st : EngineState) (note : String) :
    (st.ctxCreated = false → playNote st note = Except.ok (st, none)) ∧
    (0 ≤ st.config.gain → 0 ≤ st.config.sustain →
      ∃ r, playNote st note = Except.ok r) := by
  constructor
  · intro h
    simp [playNote, h]
  · intro hg hsust
    cases hE : playNote st note with
    | ok r => exact ⟨r, rfl⟩
    | error e =>
      exfalso
      simp only [playNote] at hE
      by_cases hc : (!st.ctxCreated || !st.masterGainSet) = true
      · rw [if_pos hc] at hE
        exact Except.noConfusion hE
      · rw [if_neg hc] at hE
        by_cases hz : st.config.gain * st.config.sustain + 1/1000 = 0
        · have hmul : 0 ≤ st.config.gain * st.config.sustain :=
            mul_nonneg hg hsust
          linarith
        · rw [if_neg hz] at hE
          exact Except.noConfusion hE

/-- Witness for C7: a freshly constructed engine (no init yet) ignores a
playNote call and reports no error. -/
theorem playNoteBeforeInitNoopWitness :
    playNote (freshEngine DEFAULT_CONFIG) "A4" =
      Except.ok (freshEngine DEFAULT_CONFIG, none) :=
  (playNoteBeforeInitNoop (freshEngine DEFAULT_CONFIG) "A4").1 rfl

/-- A successful playNote that yields a voice yields exactly the voice built
from the engine's stored config at the current time, appended to the voice
list. -/
theorem playNote_ok_voice (st : EngineState) (note : String)
    (st2 : EngineState) (v : Voice)
    (h : playNote st note = Except.ok (st2, some v)) :
    v = mkVoice st.config (noteToFreq note) st.currentTime ∧
    st2 = { st with voices := st.voices ++ [v] } := by
  simp only [playNote] at h
  by_cases hc : (!st.ctxCreated || !st.masterGainSet) = true
  · rw [if_pos hc] at h
    injection h with h1
    injection h1 with h2 h3
    exact Option.noConfusion h3
  · rw [if_neg hc] at h
    by_cases hz : st.config.gain * st.config.sustain + 1/1000 = 0
    · rw [if_pos hz] at h
      exact Except.noConfusion h
    · rw [if_neg hz] at h
      injection h with h1
      injection h1 with h2 h3
      injection h3 with h4
      refine ⟨h4.symm, ?_⟩
      rw [← h2, ← h4]

/-- Claim C9: updateConfig replaces the stored configuration and, when the
graph exists, appends exactly one smoothing automation on the delay-mix
gain toward the new delayMix over the fixed 0.1 time constant; the master
gain, compressor, delay time, feedback gain, delay gain value and every
already-launched voice are untouched, and a voice triggered by a subsequent
playNote is built from the new config at the unchanged current time. -/
theorem updateConfigIsolation (st : EngineState) (newConfig : SynthConfig) :
    (updateConfig st newConfig).config = newConfig ∧
    (updateConfig st newConfig).masterGainValue = st.masterGainValue ∧
    (updateConfig st newConfig).compressor = st.compressor ∧
    (updateConfig st newConfig).delayTimeValue = st.delayTimeValue ∧
    (updateConfig st newConfig).feedbackGainValue = st.feedbackGainValue ∧
    (updateConfig st newConfig).delayGainValue = st.delayGainValue ∧
    (updateConfig st newConfig).voices = st.voices ∧
    (st.delayGainSet = true → st.ctxCreated = true →
      (updateConfig st newConfig).delayGainEvents = st.delayGainEvents ++
        [DelayEvent.setTarget newConfig.delayMix st.currentTime (1/10)]) ∧
    (∀ note st2 v,
      playNote (updateConfig st newConfig) note = Except.ok (st2, some v) →
      v = mkVoice newConfig (noteToFreq note) st.currentTime ∧
      st2.voices = st.voices ++ [v]) := by
  by_cases hc : (st.delayGainSet && st.ctxCreated) = true
  · have hu : updateConfig st newConfig =
        { st with
            config := newConfig
            delayGainEvents := st.delayGainEvents ++
              [DelayEvent.setTarget newConfig.delayMix st.currentTime (1/10)] } := by
      simp [updateConfig, hc]
    rw [hu]
    refine ⟨rfl, rfl, rfl, rfl, rfl, rfl, rfl, fun _ _ => rfl, ?_⟩
    intro note st2 v hE
    obtain ⟨hv, hst2⟩ := playNote_ok_voice _ note st2 v hE
    exact ⟨hv, by rw [hst2]⟩
  · have hu : updateConfig st newConfig = { st with config := newConfig } := by
      simp [updateConfig, hc]
    rw [hu]
    refine ⟨rfl, rfl, rfl, rfl, rfl, rfl, rfl, ?_, ?_⟩
    · intro h1 h2
      rw [h1, h2] at hc
      simp at hc
    · intro note st2 v hE
      obtain ⟨hv, hst2⟩ := playNote_ok_voice _ note st2 v hE
      exact ⟨hv, by rw [hst2]⟩

/-- Witness for C9: after init, swapping in the default config appends the
single delay-mix smoothing automation. -/
theorem updateConfigIsolationWitness :
    (updateConfig (EngineState.init (freshEngine DEFAULT_CONFIG))
        DEFAULT_CONFIG).delayGainEvents =
      (EngineState.init (freshEngine DEFAULT_CONFIG)).delayGainEvents ++
        [DelayEvent.setTarget DEFAULT_CONFIG.delayMix
          (EngineState.init (freshEngine DEFAULT_CONFIG)).currentTime (1/10)] :=
  (updateConfigIsolation (EngineState.init (freshEngine DEFAULT_CONFIG))
    DEFAULT_CONFIG).2.2.2.2.2.2.2.1 rfl rfl

end AirInstruments
